import Mathlib

/-!
Verification of the wave-simulation / frame-resource-ring core of the
GAME3111 tree-billboards application
(`src/GAME3111-A2/Solution/Week7-2-TreeBillboardsApp.cpp`).

Floating-point quantities of the C++ source are embedded as exact
rationals (`ℚ`); machine integers as `Int`/`Nat`.  Helper code that the
repository consumes from `Common/` (MathHelper, the `Waves` class,
`FrameResource`) is not part of the snapshot; where a claim depends on it,
the corresponding definition is modelled from the specification and says
so in its doc comment.
-/

/-- Number of in-flight frame resources (`const int gNumFrameResources = 3;`,
line 24 of the source). -/
def gNumFrameResources : Int := 3

/-- Modelled from the spec: `MathHelper::Clamp(x, low, high)` returns `low`
when `x < low`, `high` when `x > high` and `x` otherwise (MathHelper.h is
not in the snapshot; this is the standard clamp the source calls at lines
365 and 377). -/
def MathHelper.Clamp (x low high : ℚ) : ℚ :=
  if x < low then low else if x > high then high else x

/-- The constant `MathHelper::Pi = 3.1415926535f`, embedded as the exact
rational value of the source literal. -/
def MathHelper.Pi : ℚ := 3.1415926535

/-- Degrees-to-radians conversion `XMConvertToRadians(deg) = deg * (pi / 180)`
used by `OnMouseMove`. -/
def XMConvertToRadians (deg : ℚ) : ℚ := deg * (MathHelper.Pi / 180)

/-- Modelled from the spec: `MathHelper::Rand(a, b)` returns a pseudo-random
integer in `[a, b]` (the spec requires a pseudo-randomly chosen interior
cell; the standard helper is `a + rand() % ((b - a) + 1)`, with the raw
generator output abstracted as a nonnegative `seed`). -/
def MathHelper.Rand (a b : Int) (seed : Nat) : Int :=
  a + (seed : Int) % ((b - a) + 1)

/-- Modelled from the spec: `MathHelper::RandF(a, b)` returns a pseudo-random
rational in `[a, b]`: `a + frac * (b - a)` where `frac` abstracts the
generator's output in `[0, 1]`. -/
def MathHelper.RandF (a b frac : ℚ) : ℚ := a + frac * (b - a)

/-- Camera orbit state mutated by `TreeBillboardsApp::OnMouseMove`
(members `mTheta`, `mPhi`, `mRadius`, `mLastMousePos`, lines 154-158). -/
structure CameraState where
  theta : ℚ
  phi : ℚ
  radius : ℚ
  lastX : Int
  lastY : Int
  deriving DecidableEq

/-- One mouse-move event: which buttons are held and the cursor position. -/
structure MouseInput where
  lbutton : Bool
  rbutton : Bool
  x : Int
  y : Int
  deriving DecidableEq

/-- Mouse-move handler `TreeBillboardsApp::OnMouseMove` (lines 352-382): left drag orbits and
clamps the polar angle to `[0.1, Pi - 0.1]`; right drag zooms and clamps
the radius to `[5, 150]`; the last mouse position is always recorded. -/
def OnMouseMove (s : CameraState) (inp : MouseInput) : CameraState :=
  if inp.lbutton then
    let dx := XMConvertToRadians ((1/4) * ((inp.x - s.lastX : Int) : ℚ))
    let dy := XMConvertToRadians ((1/4) * ((inp.y - s.lastY : Int) : ℚ))
    { s with
      theta := s.theta + dx
      phi := MathHelper.Clamp (s.phi + dy) (1/10) (MathHelper.Pi - 1/10)
      lastX := inp.x, lastY := inp.y }
  else if inp.rbutton then
    let dx := (1/5) * ((inp.x - s.lastX : Int) : ℚ)
    let dy := (1/5) * ((inp.y - s.lastY : Int) : ℚ)
    { s with
      radius := MathHelper.Clamp (s.radius + dx - dy) 5 150
      lastX := inp.x, lastY := inp.y }
  else
    { s with lastX := inp.x, lastY := inp.y }

/-- Initial camera state (`mTheta = 1.5f*XM_PI`, `mPhi = XM_PIDIV2 - 0.1f`,
`mRadius = 50.0f`, lines 154-156), with the last mouse position at the
origin (as set by an initial `OnMouseDown` at (0,0)). -/
def initCameraState : CameraState :=
  { theta := (3/2) * MathHelper.Pi
    phi := MathHelper.Pi / 2 - 1/10
    radius := 50
    lastX := 0, lastY := 0 }

/-- The water material state touched by `AnimateMaterials`: the two UV
translation entries `MatTransform(3,0)`, `MatTransform(3,1)` and the dirty
counter. -/
structure WaterMat where
  tu : ℚ
  tv : ℚ
  numFramesDirty : Int
  deriving DecidableEq

/-- Material animation `TreeBillboardsApp::AnimateMaterials` (lines 404-426): scroll the water
UV offsets by `0.1*dt` and `0.02*dt`, subtract 1 once when an offset
reaches 1, and mark the material dirty for every frame resource. -/
def AnimateMaterials (dt : ℚ) (m : WaterMat) : WaterMat :=
  let tu := m.tu + (1/10) * dt
  let tv := m.tv + (1/50) * dt
  let tu := if tu ≥ 1 then tu - 1 else tu
  let tv := if tv ≥ 1 then tv - 1 else tv
  { tu := tu, tv := tv, numFramesDirty := gNumFrameResources }

/-- Per-render-item state for `UpdateObjectCBs`: the (abstracted) object
constants record, the dirty counter, the current ring index and what each
ring slot's object-constant buffer last received for this item. -/
structure ObjectCBState where
  world : Int
  numFramesDirty : Int
  ringIndex : Int
  slotContents : Int → Int

/-- One frame of the update loop as it affects a single render item:
`Update` first advances the ring index (line 250), then `UpdateObjectCBs`
(lines 428-450) copies the constants into the current slot and decrements
the dirty counter when it is positive.  Returns the new state and whether
a copy was performed this frame. -/
def frameUpdateObjectCB (s : ObjectCBState) : ObjectCBState × Bool :=
  let idx := (s.ringIndex + 1) % gNumFrameResources
  if s.numFramesDirty > 0 then
    ({ world := s.world
       numFramesDirty := s.numFramesDirty - 1
       ringIndex := idx
       slotContents := fun k => if k = idx then s.world else s.slotContents k }, true)
  else
    ({ s with ringIndex := idx }, false)

/-- Changing a render item's world transform: store the new record and set
the dirty counter to `gNumFrameResources` (source comment at lines 39-43). -/
def setWorld (s : ObjectCBState) (w : Int) : ObjectCBState :=
  { s with world := w, numFramesDirty := gNumFrameResources }

/-- The state after `n` frames of the per-item update loop. -/
def framesFrom (s : ObjectCBState) : Nat → ObjectCBState
  | 0 => s
  | n + 1 => (frameUpdateObjectCB (framesFrom s n)).1

/-- Whether frame `n + 1` (counting from 1 after the state `s`) performs a
copy of the item's constants. -/
def copiesInFrame (s : ObjectCBState) (n : Nat) : Bool :=
  (frameUpdateObjectCB (framesFrom s n)).2

/-- The fence-wait guard of `TreeBillboardsApp::Update` (line 255): the
control thread must wait iff the slot about to be reused has a nonzero
stamped fence value that the completed-fence counter has not reached. -/
def fenceWaitNeeded (slotFence completedValue : Nat) : Bool :=
  slotFence != 0 && completedValue < slotFence

/-- State of the frame-resource ring visible to the fence protocol:
`mCurrFrameResourceIndex`, each slot's stamped `Fence` value, and the
monotone fence counter `mCurrentFence`. -/
structure RingState where
  currFrameResourceIndex : Int
  fences : Int → Nat
  currentFence : Nat

/-- One rendered frame of the ring protocol: `Update` advances the index
modulo `gNumFrameResources` (line 250) and checks the wait guard against
the given completed-counter value (line 255); `Draw` then stamps the slot
with the incremented fence value (line 331).  Returns the new state and
whether the frame had to block. -/
def frameStep (s : RingState) (completed : Nat) : RingState × Bool :=
  let idx := (s.currFrameResourceIndex + 1) % gNumFrameResources
  let blocked := fenceWaitNeeded (s.fences idx) completed
  let newFence := s.currentFence + 1
  ({ currFrameResourceIndex := idx
     fences := fun j => if j = idx then newFence else s.fences j
     currentFence := newFence }, blocked)

/-- Ring state at startup: index 0, every slot's fence at the sentinel 0
(`FrameResource::Fence = 0`), fence counter 0. -/
def initRingState : RingState :=
  { currFrameResourceIndex := 0, fences := fun _ => 0, currentFence := 0 }

/-- Run the ring protocol over a list of per-frame completed-counter
values, collecting whether each frame blocked. -/
def runFrames (s : RingState) : List Nat → RingState × List Bool
  | [] => (s, [])
  | completed :: rest =>
    let r := frameStep s completed
    let r2 := runFrames r.1 rest
    (r2.1, r.2 :: r2.2)

/-- Modelled from the spec: the `Waves` simulation state (Waves.h/Waves.cpp
are not in the snapshot).  It owns a `numRows × numCols` height grid stored
row-major as the current and previous solutions, the fixed simulation
timestep, the accumulated elapsed time `t`, and the finite-difference
coefficients `k1`, `k2`, `k3` computed once at construction from
{time step, spatial step, wave speed, damping}. -/
structure Waves where
  numRows : Nat
  numCols : Nat
  timeStep : ℚ
  k1 : ℚ
  k2 : ℚ
  k3 : ℚ
  prevSolution : Nat → ℚ
  currSolution : Nat → ℚ
  t : ℚ

/-- Point update of a height function: add `d` to the sample at `idx`. -/
def heightAdd (f : Nat → ℚ) (idx : Nat) (d : ℚ) : Nat → ℚ :=
  fun k => if k = idx then f idx + d else f k

/-- Modelled from the spec: `Waves::Disturb(i, j, magnitude)` requires
`i`, `j` at least 2 cells from every edge and applies a localized height
impulse: the full magnitude at the target cell `(i, j)` and half of it at
each of the four direct neighbors. -/
def Waves.Disturb (w : Waves) (i j : Nat) (magnitude : ℚ) : Waves :=
  let n := w.numCols
  let halfMag := (1/2) * magnitude
  let f := w.currSolution
  let f := heightAdd f (i * n + j) magnitude
  let f := heightAdd f (i * n + j + 1) halfMag
  let f := heightAdd f (i * n + j - 1) halfMag
  let f := heightAdd f ((i + 1) * n + j) halfMag
  let f := heightAdd f ((i - 1) * n + j) halfMag
  { w with currSolution := f }

/-- Modelled from the spec: one discrete update step of the wave equation.
Each interior cell's next height is a second-order finite-difference
combination of its previous height, its current height and its four
current neighbors, weighted by the precomputed coefficients; boundary
cells are left at their previous value.  The current solution then becomes
the previous one (the buffer swap). -/
def Waves.stepOnce (w : Waves) : Waves :=
  let n := w.numCols
  let newHeight : Nat → ℚ := fun idx =>
    let i := idx / n
    let j := idx % n
    if 1 ≤ i ∧ i + 1 < w.numRows ∧ 1 ≤ j ∧ j + 1 < n then
      w.k1 * w.prevSolution idx + w.k2 * w.currSolution idx +
        w.k3 * (w.currSolution ((i + 1) * n + j) + w.currSolution ((i - 1) * n + j) +
          w.currSolution (i * n + j + 1) + w.currSolution (i * n + j - 1))
    else
      w.prevSolution idx
  { w with prevSolution := w.currSolution, currSolution := newHeight }

/-- Modelled from the spec: the accumulate-and-step loop of
`Waves::Update` — while the accumulated time has reached the fixed
timestep, perform one discrete step and subtract the timestep.  The `fuel`
argument bounds the iteration count; `Waves.Update` supplies enough fuel
to drain the accumulator.  Also returns how many discrete steps ran. -/
def Waves.updateLoop : Nat → Waves → Waves × Nat
  | 0, w => (w, 0)
  | fuel + 1, w =>
    if w.timeStep ≤ w.t then
      let r := Waves.updateLoop fuel { w.stepOnce with t := w.t - w.timeStep }
      (r.1, r.2 + 1)
    else
      (w, 0)

/-- Fuel sufficient to drain an accumulated time `t` with timestep `ts`. -/
def fuelBound (t ts : ℚ) : Nat :=
  if 0 < ts then (t / ts).floor.toNat + 1 else 0

/-- Modelled from the spec: `Waves::Update(dt)` accumulates the elapsed
time and runs the fixed-timestep loop, returning the new state and the
number of discrete simulation steps performed. -/
def Waves.UpdateCounted (w : Waves) (dt : ℚ) : Waves × Nat :=
  let w1 := { w with t := w.t + dt }
  Waves.updateLoop (fuelBound w1.t w1.timeStep) w1

/-- Modelled from the spec: `Waves::Update(dt)`, state part only. -/
def Waves.Update (w : Waves) (dt : ℚ) : Waves :=
  (w.UpdateCounted dt).1

/-- Modelled from the spec: `Waves::VertexCount()` of an `m × n` grid. -/
def wavesVertexCount (m n : Nat) : Nat := m * n

/-- Modelled from the spec: `Waves::TriangleCount()` of an `m × n` grid —
two triangles per quad of the `(m-1) × (n-1)` quad mesh. -/
def wavesTriangleCount (m n : Nat) : Nat := 2 * ((m - 1) * (n - 1))

/-- The random-wave generation head of `TreeBillboardsApp::UpdateWaves`
(lines 516-530): when the accumulated total time has crossed the next
quarter-second boundary past `t_base`, advance `t_base` by 0.25 and issue
`Disturb(i, j, r)` with `i = Rand(4, RowCount()-5)`,
`j = Rand(4, ColumnCount()-5)`, `r = RandF(0.2, 0.5)`; otherwise no
disturbance is issued.  Returns the new `t_base` and the issued call, if
any. -/
def UpdateWavesRandomWave (totalTime t_base : ℚ) (rows cols : Int)
    (seedI seedJ : Nat) (frac : ℚ) : ℚ × Option (Int × Int × ℚ) :=
  if (1/4 : ℚ) ≤ totalTime - t_base then
    (t_base + 1/4,
      some (MathHelper.Rand 4 (rows - 5) seedI,
            MathHelper.Rand 4 (cols - 5) seedJ,
            MathHelper.RandF (1/5) (1/2) frac))
  else
    (t_base, none)

/-- The four render layers of the application (`enum class RenderLayer`,
lines 60-67). -/
inductive RenderLayer
  | Opaque
  | Transparent
  | AlphaTested
  | AlphaTestedTreeSprites
  deriving DecidableEq

/-- The order in which `TreeBillboardsApp::Draw` submits the layers
(lines 304-313): opaque, alpha-tested, tree-sprite billboards,
transparent. -/
def DrawLayerSequence : List RenderLayer :=
  [RenderLayer.Opaque, RenderLayer.AlphaTested,
   RenderLayer.AlphaTestedTreeSprites, RenderLayer.Transparent]

/-- The index list built by `TreeBillboardsApp::BuildWavesGeometry`
(lines 824-847) for an `m × n` wave grid: for each quad `(i, j)` with
`i < m-1`, `j < n-1`, the six indices of its two triangles, written in
row-major quad order. -/
def BuildWavesGeometryIndices (m n : Nat) : List Nat :=
  (List.range (m - 1)).flatMap fun i =>
    (List.range (n - 1)).flatMap fun j =>
      [i * n + j, i * n + j + 1, (i + 1) * n + j,
       (i + 1) * n + j, i * n + j + 1, (i + 1) * n + j + 1]

/-! ## Shared helper lemmas -/

/-- Clamp keeps its result within the closed clamping interval. -/
theorem MathHelper.Clamp_bounds (x low high : ℚ) (h : low ≤ high) :
    low ≤ MathHelper.Clamp x low high ∧ MathHelper.Clamp x low high ≤ high := by
  unfold MathHelper.Clamp
  split_ifs with h1 h2
  · exact ⟨le_refl low, h⟩
  · exact ⟨h, le_refl high⟩
  · exact ⟨not_lt.mp h1, not_lt.mp h2⟩

/-- One mouse-move event preserves the closed camera bounds. -/
theorem OnMouseMove_preserves_bounds (s : CameraState) (inp : MouseInput)
    (hphi1 : 1/10 ≤ s.phi) (hphi2 : s.phi ≤ MathHelper.Pi - 1/10)
    (hr1 : 5 ≤ s.radius) (hr2 : s.radius ≤ 150) :
    1/10 ≤ (OnMouseMove s inp).phi ∧
    (OnMouseMove s inp).phi ≤ MathHelper.Pi - 1/10 ∧
    5 ≤ (OnMouseMove s inp).radius ∧ (OnMouseMove s inp).radius ≤ 150 := by
  have hpi : (1/10 : ℚ) ≤ MathHelper.Pi - 1/10 := by norm_num [MathHelper.Pi]
  unfold OnMouseMove
  split_ifs
  · obtain ⟨a, b⟩ := MathHelper.Clamp_bounds (s.phi +
      XMConvertToRadians ((1/4) * ((inp.y - s.lastY : Int) : ℚ))) (1/10)
      (MathHelper.Pi - 1/10) hpi
    exact ⟨a, b, hr1, hr2⟩
  · obtain ⟨a, b⟩ := MathHelper.Clamp_bounds
      (s.radius + (1/5) * ((inp.x - s.lastX : Int) : ℚ) -
        (1/5) * ((inp.y - s.lastY : Int) : ℚ)) 5 150 (by norm_num)
    exact ⟨hphi1, hphi2, a, b⟩
  · exact ⟨hphi1, hphi2, hr1, hr2⟩

/-! ## Claim theorems -/

/-- C6: every rendered frame submits its draw layers in the fixed order
opaque, then alpha-tested, then alpha-tested tree-sprite billboards, then
transparent, with the transparent layer always last. -/
theorem C6_draw_layer_order :
    DrawLayerSequence =
      [RenderLayer.Opaque, RenderLayer.AlphaTested,
       RenderLayer.AlphaTestedTreeSprites, RenderLayer.Transparent] ∧
    DrawLayerSequence.getLast? = some RenderLayer.Transparent :=
  ⟨rfl, rfl⟩

/-- C7 counterexample: a single reachable left-drag mouse-move event drives
the polar angle to exactly 0.1, which is not strictly inside the open
interval (0.1, Pi - 0.1); the clamp in `OnMouseMove` is inclusive. -/
theorem C7_counterexample :
    (OnMouseMove initCameraState
      { lbutton := true, rbutton := false, x := 0, y := -10000 }).phi = 1/10 ∧
    ¬ (1/10 < (OnMouseMove initCameraState
      { lbutton := true, rbutton := false, x := 0, y := -10000 }).phi) := by
  constructor
  · norm_num [OnMouseMove, initCameraState, XMConvertToRadians,
      MathHelper.Clamp, MathHelper.Pi]
  · norm_num [OnMouseMove, initCameraState, XMConvertToRadians,
      MathHelper.Clamp, MathHelper.Pi]

/-- C7 (amended): after every sequence of mouse-move events starting from
the initial camera state, the polar angle lies in the closed interval
[0.1, Pi - 0.1] and the radius lies in the closed interval [5, 150]. -/
theorem C7_camera_bounds (inputs : List MouseInput) :
    1/10 ≤ (inputs.foldl OnMouseMove initCameraState).phi ∧
    (inputs.foldl OnMouseMove initCameraState).phi ≤ MathHelper.Pi - 1/10 ∧
    5 ≤ (inputs.foldl OnMouseMove initCameraState).radius ∧
    (inputs.foldl OnMouseMove initCameraState).radius ≤ 150 := by
  suffices h : ∀ (l : List MouseInput) (s : CameraState),
      1/10 ≤ s.phi → s.phi ≤ MathHelper.Pi - 1/10 → 5 ≤ s.radius → s.radius ≤ 150 →
      1/10 ≤ (l.foldl OnMouseMove s).phi ∧
      (l.foldl OnMouseMove s).phi ≤ MathHelper.Pi - 1/10 ∧
      5 ≤ (l.foldl OnMouseMove s).radius ∧ (l.foldl OnMouseMove s).radius ≤ 150 by
    exact h inputs initCameraState (by norm_num [initCameraState, MathHelper.Pi])
      (by norm_num [initCameraState, MathHelper.Pi])
      (by norm_num [initCameraState]) (by norm_num [initCameraState])
  intro l
  induction l with
  | nil => intro s h1 h2 h3 h4; exact ⟨h1, h2, h3, h4⟩
  | cons i rest ih =>
    intro s h1 h2 h3 h4
    obtain ⟨a, b, c, d⟩ := OnMouseMove_preserves_bounds s i h1 h2 h3 h4
    exact ih (OnMouseMove s i) a b c d

/-- C8 counterexample: with nonnegative delta time 20 and water UV offsets
tu = 1/2, tv = 0 (both in [0,1)) before the step, the animated tu is 3/2,
outside [0,1): the single `tu -= 1` wrap cannot bring a large advance back
into range. -/
theorem C8_counterexample :
    (0 : ℚ) ≤ 20 ∧ (0 : ℚ) ≤ 1/2 ∧ (1/2 : ℚ) < 1 ∧ (0 : ℚ) ≤ 0 ∧ (0 : ℚ) < 1 ∧
    (AnimateMaterials 20 { tu := 1/2, tv := 0, numFramesDirty := 0 }).tu = 3/2 ∧
    ¬ ((AnimateMaterials 20 { tu := 1/2, tv := 0, numFramesDirty := 0 }).tu < 1) := by
  norm_num [AnimateMaterials]

/-- C8 (amended): for every frame whose delta time lies in [0, 10] seconds,
if the water material's UV offsets tu and tv lie in [0,1) before the
animation step they lie in [0,1) after it, and the step marks the water
material dirty for every frame resource. -/
theorem C8_uv_offsets_wrapped (dt : ℚ) (m : WaterMat)
    (hdt0 : 0 ≤ dt) (hdt1 : dt ≤ 10)
    (htu0 : 0 ≤ m.tu) (htu1 : m.tu < 1) (htv0 : 0 ≤ m.tv) (htv1 : m.tv < 1) :
    0 ≤ (AnimateMaterials dt m).tu ∧ (AnimateMaterials dt m).tu < 1 ∧
    0 ≤ (AnimateMaterials dt m).tv ∧ (AnimateMaterials dt m).tv < 1 ∧
    (AnimateMaterials dt m).numFramesDirty = gNumFrameResources := by
  unfold AnimateMaterials
  dsimp only
  split_ifs with h1 h2 h2 <;>
    refine ⟨by linarith, by linarith, by linarith, by linarith, rfl⟩

/-- C8 witness: the amended theorem applied at dt = 1 on fresh offsets. -/
theorem C8_uv_offsets_wrapped_witness :
    0 ≤ (AnimateMaterials 1 { tu := 0, tv := 0, numFramesDirty := 0 }).tu ∧
    (AnimateMaterials 1 { tu := 0, tv := 0, numFramesDirty := 0 }).tu < 1 ∧
    0 ≤ (AnimateMaterials 1 { tu := 0, tv := 0, numFramesDirty := 0 }).tv ∧
    (AnimateMaterials 1 { tu := 0, tv := 0, numFramesDirty := 0 }).tv < 1 ∧
    (AnimateMaterials 1 { tu := 0, tv := 0, numFramesDirty := 0 }).numFramesDirty =
      gNumFrameResources :=
  C8_uv_offsets_wrapped 1 { tu := 0, tv := 0, numFramesDirty := 0 }
    (by norm_num) (by norm_num) (by norm_num) (by norm_num) (by norm_num) (by norm_num)

/-- C1: for every slot whose stamped fence value is nonzero, the advance in
`Update` blocks exactly while the completed-fence counter is below the
stamped value: the wait guard is satisfied precisely below the fence, the
control thread unblocks at the first instant the mock completion counter
reaches the stamped value, and at no earlier instant — so writing the slot
never begins early. -/
theorem C1_ring_backpressure (fence : Nat) (c : Nat → Nat)
    (hne : fence ≠ 0) (hex : ∃ s, fence ≤ c s) :
    (∀ comp, fenceWaitNeeded fence comp = true ↔ comp < fence) ∧
    (∀ comp, fenceWaitNeeded fence comp = false ↔ fence ≤ comp) ∧
    ∃ T, (∀ t, t < T → fenceWaitNeeded fence (c t) = true) ∧
      fenceWaitNeeded fence (c T) = false ∧ fence ≤ c T ∧
      (∀ t, fenceWaitNeeded fence (c t) = false → T ≤ t) := by
  have hguard : ∀ comp, fenceWaitNeeded fence comp = true ↔ comp < fence := by
    intro comp
    simp [fenceWaitNeeded, hne]
  have hguardF : ∀ comp, fenceWaitNeeded fence comp = false ↔ fence ≤ comp := by
    intro comp
    rw [← Bool.not_eq_true, (hguard comp).not, not_lt]
  refine ⟨hguard, hguardF, Nat.find hex, ?_, ?_, ?_, ?_⟩
  · intro t ht
    rw [hguard]
    have := Nat.find_min hex ht
    omega
  · rw [hguardF]
    exact Nat.find_spec hex
  · exact Nat.find_spec hex
  · intro t ht
    exact Nat.find_min' hex ((hguardF (c t)).mp ht)

/-- C1 witness: instantiated at fence value 2 against the identity
completion counter. -/
theorem C1_ring_backpressure_witness :
    fenceWaitNeeded 2 1 = true ∧ fenceWaitNeeded 2 2 = false := by
  obtain ⟨h1, h2, -⟩ := C1_ring_backpressure 2 (fun t => t) (by decide) ⟨2, Nat.le_refl 2⟩
  exact ⟨(h1 1).mpr (by decide), (h2 2).mpr (by decide)⟩

/-- C9: a slot whose fence still holds the initial sentinel 0 is entered
without any wait; a frame can only block on a slot stamped with a nonzero
fence value; and in the app's run from startup the first
`gNumFrameResources` (= 3) frames never block, whatever the completion
counter reads. -/
theorem C9_unstamped_never_blocks (comps : List Nat) (h : comps.length ≤ 3) :
    (∀ comp, fenceWaitNeeded 0 comp = false) ∧
    (∀ f comp, fenceWaitNeeded f comp = true → f ≠ 0) ∧
    (runFrames initRingState comps).2.all (fun b => !b) = true := by
  refine ⟨fun comp => by simp [fenceWaitNeeded], ?_, ?_⟩
  · intro f comp hb
    intro h0
    subst h0
    simp [fenceWaitNeeded] at hb
  · rcases comps with _ | ⟨a, _ | ⟨b, _ | ⟨c, _ | ⟨d, rest⟩⟩⟩⟩
    · rfl
    · simp [runFrames, frameStep, initRingState, fenceWaitNeeded, gNumFrameResources]
    · simp [runFrames, frameStep, initRingState, fenceWaitNeeded, gNumFrameResources]
    · simp [runFrames, frameStep, initRingState, fenceWaitNeeded, gNumFrameResources]
    · simp at h

/-- C9 witness: a three-frame run with arbitrary completed-counter reads
5, 0, 7 never blocks. -/
theorem C9_unstamped_never_blocks_witness :
    (runFrames initRingState [5, 0, 7]).2.all (fun b => !b) = true :=
  (C9_unstamped_never_blocks [5, 0, 7] (by decide)).2.2

/-- C3: after a render item's world transform is changed once (setting its
dirty counter to the ring depth `gNumFrameResources` = 3), exactly the
next 3 frames copy its constants record into the then-current ring slot,
decrementing the counter by one each time; the 4th frame performs no copy;
the counter reaches zero after exactly 3 frames; and after those 3 frames
every ring slot's buffer holds the new record. -/
theorem C3_dirty_propagation (s : ObjectCBState) (w : Int)
    (h0 : 0 ≤ s.ringIndex) (h3 : s.ringIndex < gNumFrameResources) :
    copiesInFrame (setWorld s w) 0 = true ∧ copiesInFrame (setWorld s w) 1 = true ∧
    copiesInFrame (setWorld s w) 2 = true ∧ copiesInFrame (setWorld s w) 3 = false ∧
    (framesFrom (setWorld s w) 1).numFramesDirty = gNumFrameResources - 1 ∧
    (framesFrom (setWorld s w) 2).numFramesDirty = gNumFrameResources - 2 ∧
    (framesFrom (setWorld s w) 3).numFramesDirty = 0 ∧
    (∀ k : Int, 0 ≤ k → k < gNumFrameResources →
      (framesFrom (setWorld s w) 3).slotContents k = w) := by
  unfold gNumFrameResources at h3 ⊢
  have hr : s.ringIndex = 0 ∨ s.ringIndex = 1 ∨ s.ringIndex = 2 := by omega
  refine ⟨?_, ?_, ?_, ?_, ?_, ?_, ?_, ?_⟩
  case refine_8 =>
    intro k hk0 hk3
    have hk : k = 0 ∨ k = 1 ∨ k = 2 := by omega
    rcases hr with h | h | h <;> rcases hk with rfl | rfl | rfl <;>
      simp [framesFrom, frameUpdateObjectCB, setWorld, gNumFrameResources, h]
  all_goals
    rcases hr with h | h | h <;>
      simp [copiesInFrame, framesFrom, frameUpdateObjectCB, setWorld,
        gNumFrameResources, h]

/-- C3 witness: instantiated at a concrete render-item state with ring
index 0 and a fresh record value 42. -/
theorem C3_dirty_propagation_witness :
    copiesInFrame
      (setWorld { world := 0, numFramesDirty := 0, ringIndex := 0,
                  slotContents := fun _ => 0 } 42) 0 = true ∧
    copiesInFrame
      (setWorld { world := 0, numFramesDirty := 0, ringIndex := 0,
                  slotContents := fun _ => 0 } 42) 3 = false := by
  obtain ⟨a, -, -, b, -⟩ := C3_dirty_propagation
    { world := 0, numFramesDirty := 0, ringIndex := 0, slotContents := fun _ => 0 }
    42 (by decide) (by decide)
  exact ⟨a, b⟩

/-- The modelled `MathHelper::Rand(a, b)` always lands in `[a, b]`. -/
theorem MathHelper.Rand_bounds (a b : Int) (seed : Nat) (h : a ≤ b) :
    a ≤ MathHelper.Rand a b seed ∧ MathHelper.Rand a b seed ≤ b := by
  unfold MathHelper.Rand
  have hpos : 0 < b - a + 1 := by omega
  have h1 : 0 ≤ (seed : Int) % (b - a + 1) := Int.emod_nonneg _ (by omega)
  have h2 : (seed : Int) % (b - a + 1) < b - a + 1 := Int.emod_lt_of_pos _ hpos
  omega

/-- The modelled `MathHelper::RandF(a, b)` always lands in `[a, b]`. -/
theorem MathHelper.RandF_bounds (a b frac : ℚ) (hab : a ≤ b)
    (h0 : 0 ≤ frac) (h1 : frac ≤ 1) :
    a ≤ MathHelper.RandF a b frac ∧ MathHelper.RandF a b frac ≤ b := by
  unfold MathHelper.RandF
  constructor
  · nlinarith
  · nlinarith

/-- C5: `UpdateWaves` issues a disturbance exactly when the accumulated
wall-clock total time has crossed the next quarter-second boundary past
`t_base` (independent of frame count), and every issued call
`Disturb(i, j, r)` has `i ∈ [4, rows-5]`, `j ∈ [4, cols-5]` — hence never
inside the outer 2-cell boundary margin (`i, j ≥ 2` and at least 2 below
the last row/column) — and magnitude `r ∈ [0.2, 0.5]`. -/
theorem C5_disturbance_params (totalTime t_base : ℚ) (rows cols : Int)
    (seedI seedJ : Nat) (frac : ℚ)
    (hrows : 9 ≤ rows) (hcols : 9 ≤ cols) (hfrac0 : 0 ≤ frac) (hfrac1 : frac ≤ 1) :
    ((UpdateWavesRandomWave totalTime t_base rows cols seedI seedJ frac).2.isSome = true ↔
      (1/4 : ℚ) ≤ totalTime - t_base) ∧
    (∀ i j r,
      (UpdateWavesRandomWave totalTime t_base rows cols seedI seedJ frac).2 = some (i, j, r) →
      4 ≤ i ∧ i ≤ rows - 5 ∧ 4 ≤ j ∧ j ≤ cols - 5 ∧
      2 ≤ i ∧ i ≤ rows - 3 ∧ 2 ≤ j ∧ j ≤ cols - 3 ∧
      (1/5 : ℚ) ≤ r ∧ r ≤ (1/2 : ℚ)) := by
  unfold UpdateWavesRandomWave
  split_ifs with h
  · refine ⟨by simpa using h, ?_⟩
    intro i j r hsome
    simp only [Option.some.injEq, Prod.mk.injEq] at hsome
    obtain ⟨hi, hj, hr⟩ := hsome
    subst hi; subst hj; subst hr
    obtain ⟨i1, i2⟩ := MathHelper.Rand_bounds 4 (rows - 5) seedI (by omega)
    obtain ⟨j1, j2⟩ := MathHelper.Rand_bounds 4 (cols - 5) seedJ (by omega)
    obtain ⟨r1, r2⟩ := MathHelper.RandF_bounds (1/5) (1/2) frac (by norm_num) hfrac0 hfrac1
    exact ⟨i1, i2, j1, j2, by omega, by omega, by omega, by omega, r1, r2⟩
  · refine ⟨by simpa using h, ?_⟩
    intro i j r hsome
    simp at hsome

/-- C5 witness: instantiated on the app's 128 x 128 wave grid with total
time 1s past a base of 0: a disturbance is issued. -/
theorem C5_disturbance_params_witness :
    (UpdateWavesRandomWave 1 0 128 128 7 11 (1/3)).2.isSome = true :=
  ((C5_disturbance_params 1 0 128 128 7 11 (1/3)
      (by decide) (by decide) (by norm_num) (by norm_num)).1).mpr (by norm_num)

/-- C10: for every wave grid of `m` rows and `n` columns with `m, n ≥ 1`,
`BuildWavesGeometry` writes exactly `6(m-1)(n-1) = 3 * TriangleCount`
indices, every generated index lies below the vertex count `m*n`, and
under the asserted precondition `VertexCount < 0x0000ffff` every index
fits in a 16-bit unsigned integer. -/
theorem C10_waves_index_buffer (m n : Nat) (hm : 1 ≤ m) (hn : 1 ≤ n)
    (hv : wavesVertexCount m n < 0xffff) :
    (BuildWavesGeometryIndices m n).length = 6 * ((m - 1) * (n - 1)) ∧
    (BuildWavesGeometryIndices m n).length = 3 * wavesTriangleCount m n ∧
    (∀ x ∈ BuildWavesGeometryIndices m n, x < wavesVertexCount m n) ∧
    (∀ x ∈ BuildWavesGeometryIndices m n, x < 2 ^ 16) := by
  have hlen : (BuildWavesGeometryIndices m n).length = 6 * ((m - 1) * (n - 1)) := by
    simp [BuildWavesGeometryIndices, List.length_flatMap, Function.comp,
      List.map_const', List.sum_replicate, smul_eq_mul, Function.comp_def]
    ring
  have hmem : ∀ x ∈ BuildWavesGeometryIndices m n, x < wavesVertexCount m n := by
    intro x hx
    simp only [BuildWavesGeometryIndices, List.mem_flatMap, List.mem_range] at hx
    obtain ⟨i, hi, j, hj, hx⟩ := hx
    have k1 : (i + 2) * n ≤ m * n := Nat.mul_le_mul_right n (by omega)
    have k2 : (i + 2) * n = i * n + 2 * n := by ring
    have k3 : (i + 1) * n = i * n + n := by ring
    unfold wavesVertexCount
    simp only [List.mem_cons, List.not_mem_nil, or_false] at hx
    rcases hx with rfl | rfl | rfl | rfl | rfl | rfl <;> omega
  refine ⟨hlen, by rw [hlen]; unfold wavesTriangleCount; ring, hmem, ?_⟩
  intro x hx
  have := hmem x hx
  unfold wavesVertexCount at *
  omega

/-- C10 witness: instantiated on a 4 x 4 grid. -/
theorem C10_waves_index_buffer_witness :
    (BuildWavesGeometryIndices 4 4).length = 6 * ((4 - 1) * (4 - 1)) ∧
    (BuildWavesGeometryIndices 4 4).length = 3 * wavesTriangleCount 4 4 := by
  obtain ⟨a, b, -⟩ := C10_waves_index_buffer 4 4 (by decide) (by decide) (by decide)
  exact ⟨a, b⟩

/-- Evaluating a point update away from the updated index. -/
theorem heightAdd_ne (f : Nat → ℚ) (idx : Nat) (d : ℚ) (k : Nat) (h : k ≠ idx) :
    heightAdd f idx d k = f k := if_neg h

/-- Evaluating a point update at the updated index. -/
theorem heightAdd_eq (f : Nat → ℚ) (idx : Nat) (d : ℚ) :
    heightAdd f idx d idx = f idx + d := if_pos rfl

/-- C4: for every (row, col) at least 2 cells from every edge of the grid
and positive magnitude, `Disturb(row, col, magnitude)` strictly increases
the height stored at the target cell — it adds exactly `magnitude` there —
and adds the smaller fraction `magnitude/2` at each of the four direct
neighbors. -/
theorem C4_disturb_increases (w : Waves) (i j : Nat) (magnitude : ℚ)
    (hi1 : 2 ≤ i) (hi2 : i + 3 ≤ w.numRows) (hj1 : 2 ≤ j) (hj2 : j + 3 ≤ w.numCols)
    (hm : 0 < magnitude) :
    w.currSolution (i * w.numCols + j) <
      (w.Disturb i j magnitude).currSolution (i * w.numCols + j) ∧
    (w.Disturb i j magnitude).currSolution (i * w.numCols + j) =
      w.currSolution (i * w.numCols + j) + magnitude ∧
    (w.Disturb i j magnitude).currSolution (i * w.numCols + j + 1) =
      w.currSolution (i * w.numCols + j + 1) + (1/2) * magnitude ∧
    (w.Disturb i j magnitude).currSolution (i * w.numCols + j - 1) =
      w.currSolution (i * w.numCols + j - 1) + (1/2) * magnitude ∧
    (w.Disturb i j magnitude).currSolution ((i + 1) * w.numCols + j) =
      w.currSolution ((i + 1) * w.numCols + j) + (1/2) * magnitude ∧
    (w.Disturb i j magnitude).currSolution ((i - 1) * w.numCols + j) =
      w.currSolution ((i - 1) * w.numCols + j) + (1/2) * magnitude ∧
    (1/2) * magnitude < magnitude := by
  set n := w.numCols with hn
  have hn5 : 5 ≤ n := by omega
  have e2 : (i - 1) * n + n = i * n := by
    have h : i - 1 + 1 = i := by omega
    calc (i - 1) * n + n = (i - 1 + 1) * n := by ring
      _ = i * n := by rw [h]
  have e1 : (i + 1) * n = i * n + n := by ring
  have hcenter : (w.Disturb i j magnitude).currSolution (i * n + j) =
      w.currSolution (i * n + j) + magnitude := by
    simp only [Waves.Disturb]
    rw [heightAdd_ne _ _ _ _ (by omega : i * n + j ≠ (i - 1) * n + j),
        heightAdd_ne _ _ _ _ (by omega : i * n + j ≠ (i + 1) * n + j),
        heightAdd_ne _ _ _ _ (by omega : i * n + j ≠ i * n + j - 1),
        heightAdd_ne _ _ _ _ (by omega : i * n + j ≠ i * n + j + 1),
        heightAdd_eq]
  refine ⟨by rw [hcenter]; linarith, hcenter, ?_, ?_, ?_, ?_, by linarith⟩
  · simp only [Waves.Disturb]
    rw [heightAdd_ne _ _ _ _ (by omega : i * n + j + 1 ≠ (i - 1) * n + j),
        heightAdd_ne _ _ _ _ (by omega : i * n + j + 1 ≠ (i + 1) * n + j),
        heightAdd_ne _ _ _ _ (by omega : i * n + j + 1 ≠ i * n + j - 1),
        heightAdd_eq,
        heightAdd_ne _ _ _ _ (by omega : i * n + j + 1 ≠ i * n + j)]
  · simp only [Waves.Disturb]
    rw [heightAdd_ne _ _ _ _ (by omega : i * n + j - 1 ≠ (i - 1) * n + j),
        heightAdd_ne _ _ _ _ (by omega : i * n + j - 1 ≠ (i + 1) * n + j),
        heightAdd_eq,
        heightAdd_ne _ _ _ _ (by omega : i * n + j - 1 ≠ i * n + j + 1),
        heightAdd_ne _ _ _ _ (by omega : i * n + j - 1 ≠ i * n + j)]
  · simp only [Waves.Disturb]
    rw [heightAdd_ne _ _ _ _ (by omega : (i + 1) * n + j ≠ (i - 1) * n + j),
        heightAdd_eq,
        heightAdd_ne _ _ _ _ (by omega : (i + 1) * n + j ≠ i * n + j - 1),
        heightAdd_ne _ _ _ _ (by omega : (i + 1) * n + j ≠ i * n + j + 1),
        heightAdd_ne _ _ _ _ (by omega : (i + 1) * n + j ≠ i * n + j)]
  · simp only [Waves.Disturb]
    rw [heightAdd_eq,
        heightAdd_ne _ _ _ _ (by omega : (i - 1) * n + j ≠ (i + 1) * n + j),
        heightAdd_ne _ _ _ _ (by omega : (i - 1) * n + j ≠ i * n + j - 1),
        heightAdd_ne _ _ _ _ (by omega : (i - 1) * n + j ≠ i * n + j + 1),
        heightAdd_ne _ _ _ _ (by omega : (i - 1) * n + j ≠ i * n + j)]

/-- C4 witness: a flat 8 x 8 grid disturbed at (3, 3) with magnitude 2/5
strictly increases the target cell's height. -/
theorem C4_disturb_increases_witness :
    (2 : Nat) ≤ 3 ∧
    ({ numRows := 8, numCols := 8, timeStep := 3/100, k1 := 0, k2 := 0, k3 := 0,
       prevSolution := fun _ => 0, currSolution := fun _ => 0, t := 0 } : Waves).currSolution
        (3 * 8 + 3) <
      (({ numRows := 8, numCols := 8, timeStep := 3/100, k1 := 0, k2 := 0, k3 := 0,
          prevSolution := fun _ => 0, currSolution := fun _ => 0, t := 0 } : Waves).Disturb
        3 3 (2/5)).currSolution (3 * 8 + 3) :=
  ⟨by decide,
    (C4_disturb_increases
      { numRows := 8, numCols := 8, timeStep := 3/100, k1 := 0, k2 := 0, k3 := 0,
        prevSolution := fun _ => 0, currSolution := fun _ => 0, t := 0 }
      3 3 (2/5) (by decide) (by decide) (by decide) (by decide) (by norm_num)).1⟩

/-- `Rat.floor` agrees with the `Int.floor` of the floor ring structure. -/
theorem ratFloor_eq_intFloor (q : ℚ) : q.floor = ⌊q⌋ := by
  rw [Rat.floor_def, Rat.floor_def']

/-- When the accumulator is below the timestep, the update loop performs
no step and leaves the state unchanged, whatever the fuel. -/
theorem Waves.updateLoop_zero_steps (fuel : Nat) (w : Waves) (h : w.t < w.timeStep) :
    Waves.updateLoop fuel w = (w, 0) := by
  cases fuel with
  | zero => rfl
  | succ f =>
    unfold Waves.updateLoop
    rw [if_neg (not_le.mpr h)]

/-- With the accumulator at exactly `n` timesteps and enough fuel, the
update loop performs exactly `n` discrete steps and drains the accumulator
to zero. -/
theorem Waves.updateLoop_count_exact (n : Nat) : ∀ (fuel : Nat) (w : Waves),
    0 < w.timeStep → w.t = n * w.timeStep → n ≤ fuel →
    (Waves.updateLoop fuel w).2 = n ∧ (Waves.updateLoop fuel w).1.t = 0 := by
  induction n with
  | zero =>
    intro fuel w hts ht _
    simp only [Nat.cast_zero, zero_mul] at ht
    rw [Waves.updateLoop_zero_steps fuel w (by rw [ht]; exact hts)]
    exact ⟨rfl, ht⟩
  | succ k ih =>
    intro fuel w hts ht hf
    cases fuel with
    | zero => omega
    | succ f =>
      have hk0 : (0 : ℚ) ≤ (k : ℚ) := Nat.cast_nonneg k
      have hguard : w.timeStep ≤ w.t := by
        rw [ht]
        push_cast
        nlinarith
      have hw't : ({ w.stepOnce with t := w.t - w.timeStep } : Waves).t =
          (k : ℚ) * ({ w.stepOnce with t := w.t - w.timeStep } : Waves).timeStep := by
        show w.t - w.timeStep = (k : ℚ) * w.stepOnce.timeStep
        rw [show w.stepOnce.timeStep = w.timeStep from rfl, ht]
        push_cast
        ring
      obtain ⟨hc, htf⟩ := ih f { w.stepOnce with t := w.t - w.timeStep }
        (by show 0 < w.stepOnce.timeStep; exact hts) hw't (by omega)
      unfold Waves.updateLoop
      rw [if_pos hguard]
      exact ⟨by simpa using hc, by simpa using htf⟩

/-- C2: starting from a drained accumulator (as after construction or any
exact-multiple update), `Update(t)` with `0 ≤ t` below one timestep
performs zero discrete steps and leaves every height sample (current and
previous solutions) unchanged; `Update(t)` with `t` equal to exactly `n`
timesteps performs exactly `n` discrete steps; and repeated calls of
`Update(0)` never change the grid state. -/
theorem C2_fixed_timestep (w : Waves) (dt : ℚ) (n : Nat)
    (hts : 0 < w.timeStep) (ht0 : w.t = 0) :
    (0 ≤ dt → dt < w.timeStep →
      (w.UpdateCounted dt).2 = 0 ∧ (w.Update dt).currSolution = w.currSolution ∧
      (w.Update dt).prevSolution = w.prevSolution ∧ (w.Update dt).t = dt) ∧
    (dt = n * w.timeStep → (w.UpdateCounted dt).2 = n) ∧
    (∀ k : Nat, (fun v => Waves.Update v 0)^[k] w = w) := by
  have hw1 : ({ w with t := w.t + dt } : Waves).t = dt := by
    show w.t + dt = dt
    rw [ht0, zero_add]
  refine ⟨?_, ?_, ?_⟩
  · intro hdt0 hdt1
    have hz : Waves.updateLoop (fuelBound ({ w with t := w.t + dt } : Waves).t
        ({ w with t := w.t + dt } : Waves).timeStep) { w with t := w.t + dt } =
        ({ w with t := w.t + dt }, 0) :=
      Waves.updateLoop_zero_steps _ _ (by rw [hw1]; exact hdt1)
    unfold Waves.Update Waves.UpdateCounted
    rw [hz]
    exact ⟨rfl, rfl, rfl, hw1⟩
  · intro hdt
    have ht : ({ w with t := w.t + dt } : Waves).t =
        (n : ℚ) * ({ w with t := w.t + dt } : Waves).timeStep := by
      rw [hw1, hdt]
    have hfuel : n ≤ fuelBound ({ w with t := w.t + dt } : Waves).t
        ({ w with t := w.t + dt } : Waves).timeStep := by
      show n ≤ fuelBound (w.t + dt) w.timeStep
      unfold fuelBound
      rw [if_pos hts]
      have hdiv : (w.t + dt) / w.timeStep = (n : ℚ) := by
        rw [ht0, zero_add, hdt]
        exact mul_div_cancel_right₀ _ (ne_of_gt hts)
      rw [hdiv, ratFloor_eq_intFloor, Int.floor_natCast]
      omega
    unfold Waves.UpdateCounted
    dsimp only
    exact (Waves.updateLoop_count_exact n _ { w with t := w.t + dt } hts ht hfuel).1
  · intro k
    induction k with
    | zero => rfl
    | succ m ihm =>
      rw [Function.iterate_succ_apply', ihm]
      show (w.UpdateCounted 0).1 = w
      have hw0 : ({ w with t := w.t + 0 } : Waves) = w := by
        have hadd : w.t + 0 = w.t := add_zero _
        calc ({ w with t := w.t + 0 } : Waves) = { w with t := w.t } := by rw [hadd]
          _ = w := rfl
      unfold Waves.UpdateCounted
      dsimp only
      rw [hw0, Waves.updateLoop_zero_steps _ w (by rw [ht0]; exact hts)]

/-- C2 witness: on a fresh 4 x 4 field with timestep 3/100, an update of
exactly two timesteps performs exactly two discrete steps. -/
theorem C2_fixed_timestep_witness :
    (({ numRows := 4, numCols := 4, timeStep := 3/100, k1 := 0, k2 := 0, k3 := 0,
        prevSolution := fun _ => 0, currSolution := fun _ => 0, t := 0 } : Waves).UpdateCounted
      (6/100)).2 = 2 :=
  (C2_fixed_timestep
    { numRows := 4, numCols := 4, timeStep := 3/100, k1 := 0, k2 := 0, k3 := 0,
      prevSolution := fun _ => 0, currSolution := fun _ => 0, t := 0 }
    (6/100) 2 (by norm_num) rfl).2.1 (by push_cast; norm_num)
